import Mathlib

/-!
Shallow embedding of the log-viewer ingestion → schema-inference → storage →
filtered-retrieval core (Rust sources under `src/`), together with theorems
settling the frozen claims about it.

Conventions of the embedding:
* `serde_json::Value` becomes the inductive `LogViewer.Value`; a JSON number
  keeps serde's runtime representation split: `JNum.int` models a number held
  in integer representation (`i64`/`u64`), `JNum.float` models a number held
  as an `f64`, whose exact rational value we record (every finite `f64` is a
  rational; no claim performs float arithmetic, only storage and retrieval).
* `HashMap<String, _>` becomes an association list (`List (String × _)`);
  theorems that depend on the map's lack of intrinsic order quantify over
  permutations of the list.
* The external relational store (DuckDB) is an explicit state: rows of typed
  SQL cells plus oracle functions for the parts the repository delegates to
  the engine (WHERE-clause evaluation, per-cell typed getters).
-/

namespace LogViewer

/-- Column types, from `FieldType` in `src/storage/schema.rs`. -/
inductive FieldType where
  | Text
  | Integer
  | Float
  | Boolean
  | Json
deriving DecidableEq, Repr, Fintype

/-- `FieldType::to_sql` from `src/storage/schema.rs`. -/
def FieldType.toSqlName : FieldType → String
  | .Text => "TEXT"
  | .Integer => "BIGINT"
  | .Float => "DOUBLE"
  | .Boolean => "BOOLEAN"
  | .Json => "TEXT"

/-- `FieldType::merge` from `src/storage/schema.rs`: if the two types are
equal return the first; Integer/Float in either order give Float; any other
differing pair gives Text. -/
def FieldType.merge (a b : FieldType) : FieldType :=
  if a = b then a
  else
    match a, b with
    | .Integer, .Float | .Float, .Integer => .Float
    | _, _ => .Text

/-- Exact rational value of a finite `f64`, as an explicit
numerator/denominator pair (every finite `f64` is such a rational; no
embedded code path does float arithmetic, only storage and retrieval).
The denominator is meant to be positive; the claims only ever move these
values around, so normalization is not needed. -/
structure F64 where
  num : ℤ
  den : ℕ
deriving DecidableEq, Repr

/-- Whether the `f64` holds an exactly integral value (the test the store
applies when casting a `DOUBLE` cell to `i64`). -/
def F64.isIntegral (f : F64) : Bool := f.num % (f.den : ℤ) == 0

/-- The integral value of an exactly integral `f64`. -/
def F64.toInt (f : F64) : ℤ := f.num / (f.den : ℤ)

/-- The `f64` holding the value of an integer. -/
def F64.ofInt (i : ℤ) : F64 := ⟨i, 1⟩

/-- Runtime representation of a `serde_json` number: integer representation
(`is_i64() || is_u64()` holds) or floating representation (exact rational
value of the `f64`). -/
inductive JNum where
  | int (i : ℤ)
  | float (f : F64)
deriving DecidableEq, Repr

/-- `serde_json::Value`. -/
inductive Value where
  | null
  | bool (b : Bool)
  | num (n : JNum)
  | str (s : String)
  | arr (xs : List Value)
  | obj (xs : List (String × Value))

/-- Lower bound of `i64`. -/
def i64Min : ℤ := -(2 ^ 63)

/-- Upper bound (exclusive) of `i64`. -/
def i64Max : ℤ := 2 ^ 63

/-- `serde_json::Value::as_i64`: succeeds only on a number in integer
representation that fits in `i64`. -/
def Value.asI64 : Value → Option ℤ
  | .num (.int i) => if i64Min ≤ i ∧ i < i64Max then some i else none
  | _ => none

/-- `serde_json::Value::as_u64`: succeeds only on a nonnegative number in
integer representation. -/
def Value.asU64 : Value → Option ℤ
  | .num (.int i) => if 0 ≤ i then some i else none
  | _ => none

/-- `serde_json::Value::as_str`. -/
def Value.asStr : Value → Option String
  | .str s => some s
  | _ => none

/-- `serde_json::Value::as_f64`: any number converts (an integer too large
for `i64` converts with rounding; the rounding itself is not modelled — no
claim reaches it). -/
def Value.asF64 : Value → Option F64
  | .num (.float f) => some f
  | .num (.int i) => some (F64.ofInt i)
  | _ => none

mutual

/-- `serde_json`'s `to_string` serialization, as used by
`extract_params_from_log` for array/object values (numeric formatting is
schematic; no claim depends on the serialized text of a float). -/
def Value.render : Value → String
  | .null => "null"
  | .bool b => if b then "true" else "false"
  | .num (.int i) => toString i
  | .num (.float f) => toString f.num ++ "/" ++ toString f.den
  | .str s => "\"" ++ s ++ "\""
  | .arr xs => "[" ++ Value.renderArr xs ++ "]"
  | .obj xs => "\x7b" ++ Value.renderObj xs ++ "\x7d"

/-- Comma-separated serialization of an array's elements. -/
def Value.renderArr : List Value → String
  | [] => ""
  | [x] => Value.render x
  | x :: y :: xs => Value.render x ++ "," ++ Value.renderArr (y :: xs)

/-- Comma-separated serialization of an object's entries. -/
def Value.renderObj : List (String × Value) → String
  | [] => ""
  | [(k, v)] => "\"" ++ k ++ "\":" ++ Value.render v
  | (k, v) :: y :: xs =>
      "\"" ++ k ++ "\":" ++ Value.render v ++ "," ++ Value.renderObj (y :: xs)

end

/-- `detect_field_type` from `src/storage/schema.rs`. -/
def detectFieldType : Value → FieldType
  | .null => .Text
  | .bool _ => .Boolean
  | .num (.int _) => .Integer
  | .num (.float _) => .Float
  | .str _ => .Text
  | .arr _ => .Json
  | .obj _ => .Json

/-- `normalize_field_name` from `src/storage/schema.rs`. -/
def normalizeFieldName (field : String) : String :=
  if field = "msg" then "message"
  else if field = "lvl" then "level"
  else if field = "timestamp" then "time"
  else field

/-- `JsonLog` from `src/ingestion/models.rs`: the flattened field map,
modelled as an association list (key set models the `HashMap`). -/
structure JsonLog where
  fields : List (String × Value)

/-- `HashMap::get` on the field map. -/
def JsonLog.getField (l : JsonLog) (k : String) : Option Value :=
  (l.fields.find? (fun p => p.1 == k)).map (fun p => p.2)

/-- `JsonLog::get_timestamp_ms`: literal lookup of `"time"` then `as_i64`. -/
def JsonLog.getTimestampMs (l : JsonLog) : Option ℤ :=
  (l.getField "time").bind Value.asI64

/-- `JsonLog::get_message`: literal lookup of `"msg"` then `as_str`. -/
def JsonLog.getMessage (l : JsonLog) : Option String :=
  (l.getField "msg").bind Value.asStr

/-- `JsonLog::get_level_raw`: literal lookup of `"level"` then `as_u64`. -/
def JsonLog.getLevelRaw (l : JsonLog) : Option ℤ :=
  (l.getField "level").bind Value.asU64

/-- Lexicographic strict comparison of character lists, by code point; the
order Rust's `str`/`String` comparison uses (UTF-8 byte order coincides with
code-point order). -/
def charListLt : List Char → List Char → Bool
  | _, [] => false
  | [], _ :: _ => true
  | a :: as, b :: bs =>
      if a < b then true else if b < a then false else charListLt as bs

/-- Lexicographic `≤` on strings (the order of Rust's `Vec::sort` /
`sort_by_key` on `String` keys). -/
def strLe (s t : String) : Bool :=
  if s.data = t.data then true else charListLt s.data t.data

/-- `strLe` as a relation, for use with `List.insertionSort`. -/
def strLeProp (s t : String) : Prop := strLe s t = true

instance : DecidableRel strLeProp := fun s t =>
  inferInstanceAs (Decidable (strLe s t = true))

/-- `SchemaBuilder` from `src/storage/schema.rs`: the `HashMap<String,
FieldType>` is modelled semantically as its lookup function together with its
key list; a `HashMap` exposes no intrinsic order, so every theorem that
depends on map order is stated up to permutation of `keys`. -/
structure SchemaBuilder where
  types : String → Option FieldType
  keys : List String

/-- `SchemaBuilder::new`. -/
def SchemaBuilder.new : SchemaBuilder :=
  { types := fun _ => none, keys := [] }

/-- Key-set insertion: a `HashMap` entry call adds the key exactly when it is
absent. -/
def keyInsert (ks : List String) (n : String) : List String :=
  if n ∈ ks then ks else ks ++ [n]

/-- The `entry(..).and_modify(|t| t.merge(detected)).or_insert(detected)`
update on the lookup function. -/
def typesUpdate (f : String → Option FieldType) (name : String)
    (t : FieldType) : String → Option FieldType :=
  fun k =>
    if k = name then
      some (match f name with
        | some t0 => t0.merge t
        | none => t)
    else f k

/-- One iteration of the loop in `SchemaBuilder::analyze_log`: normalize the
field name, detect the value's type, then update the map. -/
def SchemaBuilder.analyzeField (b : SchemaBuilder) (p : String × Value) :
    SchemaBuilder :=
  { types := typesUpdate b.types (normalizeFieldName p.1) (detectFieldType p.2),
    keys := keyInsert b.keys (normalizeFieldName p.1) }

/-- Two builder states with the same map contents: equal lookup functions
and the same key set (the key lists in the model may differ by
permutation, exactly as two equal `HashMap`s may iterate differently). -/
def SchemaBuilder.Equiv (b₁ b₂ : SchemaBuilder) : Prop :=
  b₁.types = b₂.types ∧ b₁.keys.Perm b₂.keys

/-- `SchemaBuilder::analyze_log`. -/
def SchemaBuilder.analyzeLog (b : SchemaBuilder) (log : JsonLog) :
    SchemaBuilder :=
  log.fields.foldl SchemaBuilder.analyzeField b

/-- `SchemaBuilder::analyze_logs`. -/
def SchemaBuilder.analyzeLogs (b : SchemaBuilder) (logs : List JsonLog) :
    SchemaBuilder :=
  logs.foldl SchemaBuilder.analyzeLog b

/-- Analyze a sample from scratch. -/
def buildSchema (logs : List JsonLog) : SchemaBuilder :=
  SchemaBuilder.new.analyzeLogs logs

/-- `SchemaBuilder::field_names`: all keys of the map, sorted. -/
def SchemaBuilder.fieldNames (b : SchemaBuilder) : List String :=
  b.keys.insertionSort strLeProp

/-- The `(name, type)` pairs of the map, enumerated in key order. -/
def SchemaBuilder.entries (b : SchemaBuilder) : List (String × FieldType) :=
  b.fieldNames.map (fun k => (k, (b.types k).getD .Text))

/-- `strLeProp` on the first components of entry pairs. -/
def pairLeProp (p q : String × FieldType) : Prop := strLeProp p.1 q.1

instance : DecidableRel pairLeProp := fun p q =>
  inferInstanceAs (Decidable (strLe p.1 q.1 = true))

/-- The `fields.sort_by_key(|(name, _)| *name)` step of
`generate_create_table_sql`. -/
def sortPairs (l : List (String × FieldType)) : List (String × FieldType) :=
  l.insertionSort pairLeProp

/-- The column-emitting loop of `generate_create_table_sql`: one indented
`name type` line per field, a comma after every line but the last. -/
def renderCols : List (String × FieldType) → String
  | [] => ""
  | [(n, t)] => "    " ++ n ++ " " ++ t.toSqlName ++ "\n"
  | (n, t) :: y :: xs =>
      "    " ++ n ++ " " ++ t.toSqlName ++ ",\n" ++ renderCols (y :: xs)

/-- `SchemaBuilder::generate_create_table_sql`. -/
def SchemaBuilder.generateCreateTableSql (b : SchemaBuilder)
    (tableName : String) : String :=
  "CREATE SEQUENCE IF NOT EXISTS seq_" ++ tableName ++ "_id START 1;\n"
    ++ "CREATE TABLE " ++ tableName ++ " (\n"
    ++ "    id INTEGER PRIMARY KEY DEFAULT nextval(\x27seq_" ++ tableName
    ++ "_id\x27),\n"
    ++ renderCols (sortPairs b.entries)
    ++ ")"

/-- The `duckdb::Error` values the embedded code constructs or receives. -/
inductive DuckDbError where
  | invalidParameterCount (got expected : ℕ)
  | execError (msg : String)
deriving DecidableEq, Repr

/-- `LogViewerError` from `src/error.rs` (variants carry their rendered
payloads). -/
inductive LogViewerError where
  | FileRead (msg : String)
  | JsonParse (msg : String)
  | Database (e : DuckDbError)
  | InvalidLogFormat (msg : String)
  | TimestampError (msg : String)
  | Other (msg : String)
deriving DecidableEq, Repr

/-- The `Display` rendering of a `duckdb::Error`. -/
def DuckDbError.describe : DuckDbError → String
  | .invalidParameterCount got expected =>
      "Invalid parameter count: " ++ toString got ++ " " ++ toString expected
  | .execError msg => msg

/-- The `thiserror`-derived `Display` rendering of `LogViewerError`
(`src/error.rs` format strings). -/
def LogViewerError.describe : LogViewerError → String
  | .FileRead m => "Failed to read log file: " ++ m
  | .JsonParse m => "Failed to parse JSON: " ++ m
  | .Database e => "Database error: " ++ e.describe
  | .InvalidLogFormat m => "Invalid log format: " ++ m
  | .TimestampError m => "Timestamp conversion error: " ++ m
  | .Other m => "Error: " ++ m

/-- A typed SQL cell value as the store holds and reports it; also the shape
of a bound parameter (`Null`, `Bool`, `Int`, `Float`, `Text`). -/
inductive SqlValue where
  | snull
  | sbool (b : Bool)
  | sint (i : ℤ)
  | sfloat (f : F64)
  | stext (s : String)
deriving DecidableEq, Repr

/-- The per-column `match value` conversion of
`LogDatabase::extract_params_from_log`: absent/null → NULL, bool → bool,
number → `as_i64` else `as_f64`, string → string, array/object → serialized
text. -/
def paramOfValue : Option Value → SqlValue
  | none => .snull
  | some .null => .snull
  | some (.bool b) => .sbool b
  | some (.num n) =>
      match (Value.num n).asI64 with
      | some i => .sint i
      | none =>
          match (Value.num n).asF64 with
          | some f => .sfloat f
          | none => .snull
  | some (.str s) => .stext s
  | some (.arr xs) => .stext (Value.arr xs).render
  | some (.obj xs) => .stext (Value.obj xs).render

/-- `LogDatabase::extract_params_from_log` (`src/storage/database.rs`): for
each canonical column name in order, find the first record field whose
normalized name matches, then convert. -/
def extractParamsFromLog (fieldNames : List String) (log : JsonLog) :
    List SqlValue :=
  fieldNames.map (fun fieldName =>
    paramOfValue ((log.fields.find? (fun p =>
      normalizeFieldName p.1 == fieldName)).map (fun p => p.2)))

/-- Modelled from the spec (store contract, §6): the external store accepts
a parameter into a column of matching declared type, stores NULL anywhere,
and widens an integer bound to a `DOUBLE` column; any other combination is
reported as a statement failure (the model under-approximates the engine's
implicit casts; claims about failing inserts only assume that *some* insert
can fail). -/
def storeCell : FieldType → SqlValue → Option SqlValue
  | _, .snull => some .snull
  | .Integer, .sint i => some (.sint i)
  | .Float, .sint i => some (.sfloat (F64.ofInt i))
  | .Float, .sfloat f => some (.sfloat f)
  | .Boolean, .sbool b => some (.sbool b)
  | .Text, .stext s => some (.stext s)
  | .Json, .stext s => some (.stext s)
  | _, _ => none

/-- Modelled from the spec (§4.3): the store's typed getter probed first
during reconstruction — a cell reads back as `String` only from a `TEXT`
column value. -/
def cellGetString : SqlValue → Option String
  | .stext s => some s
  | _ => none

/-- Modelled from the spec (§4.3): the store's `i64` getter; an
exact-integral `DOUBLE` cell casts to integer (the documented asymmetry). -/
def cellGetI64 : SqlValue → Option ℤ
  | .sint i => some i
  | .sfloat f => if f.isIntegral then some f.toInt else none
  | _ => none

/-- Modelled from the spec (§4.3): the store's `f64` getter. -/
def cellGetF64 : SqlValue → Option F64
  | .sfloat f => some f
  | .sint i => some (F64.ofInt i)
  | _ => none

/-- Modelled from the spec (§4.3): the store's `bool` getter. -/
def cellGetBool : SqlValue → Option Bool
  | .sbool b => some b
  | _ => none

/-- The probing chain in `LogDatabase::query_logs`: try the cell as string,
then `i64`, then `f64` (`serde_json::Number::from_f64`), then bool, else
null. -/
def reconstructCell (c : SqlValue) : Value :=
  match cellGetString c with
  | some s => .str s
  | none =>
      match cellGetI64 c with
      | some i => .num (.int i)
      | none =>
          match cellGetF64 c with
          | some f => .num (.float f)
          | none =>
              match cellGetBool c with
              | some b => .bool b
              | none => .null

/-- `LogDatabase` from `src/storage/database.rs`, together with the store
state it owns. `rows` hold the identity cell first, then one cell per
column of `fieldNames` (name order; the store matches insert parameters to
columns by name). `whereEval` is the external engine's WHERE-clause
front end, modelled from the spec (§6): it either compiles filter text to a
row predicate or reports an error. -/
structure LogDatabase where
  tableName : String
  fieldNames : List String
  colTypes : List FieldType
  rows : List (List SqlValue)
  nextId : ℤ
  whereEval : String → Option (List SqlValue → Bool)

/-- `LogDatabase::new_in_memory`, given the engine's filter front end. -/
def LogDatabase.newInMemory
    (whereEval : String → Option (List SqlValue → Bool)) : LogDatabase :=
  { tableName := "logs", fieldNames := [], colTypes := [], rows := [],
    nextId := 1, whereEval := whereEval }

/-- `LogDatabase::create_table_from_logs`: build the schema from the sample
prefix, execute the generated DDL (the store rejects the malformed
zero-column statement the builder emits for an empty schema), then record
`field_names`. Column types are kept aligned with `fieldNames`, which is
also the DDL column order. -/
def LogDatabase.createTableFromLogs (db : LogDatabase) (logs : List JsonLog)
    (sampleSize : ℕ) : Except LogViewerError LogDatabase :=
  let builder := buildSchema (logs.take sampleSize)
  if builder.keys.isEmpty then
    .error (.Database (.execError "syntax error in CREATE TABLE"))
  else
    .ok { db with
      fieldNames := builder.fieldNames,
      colTypes := builder.fieldNames.map
        (fun k => (builder.types k).getD .Text) }

/-- One `INSERT` statement executed at the store: coerce each positional
parameter into its column, failing if any cell is rejected or the
parameter count does not match. -/
def storeRow (colTypes : List FieldType) (params : List SqlValue) :
    Option (List SqlValue) :=
  if params.length = colTypes.length then
    (colTypes.zip params).mapM (fun p => storeCell p.1 p.2)
  else none

/-- `LogDatabase::insert_log`: fails with the typed
`InvalidParameterCount(0, 0)` wrapper when no table has been created. -/
def LogDatabase.insertLog (db : LogDatabase) (log : JsonLog) :
    LogDatabase × Except LogViewerError Unit :=
  if db.fieldNames.isEmpty then
    (db, .error (.Database (.invalidParameterCount 0 0)))
  else
    match storeRow db.colTypes (extractParamsFromLog db.fieldNames log) with
    | some cells =>
        ({ db with
            rows := db.rows ++ [(SqlValue.sint db.nextId :: cells)],
            nextId := db.nextId + 1 },
          .ok ())
    | none => (db, .error (.Database (.execError "insert failed")))

/-- The per-row loop of the transaction in `LogDatabase::insert_logs`:
execute each insert in turn, assigning consecutive identity values; the
first failure aborts the whole loop with nothing kept (the `?` propagation
drops the uncommitted transaction, which rolls back). -/
def insertBatch (colTypes : List FieldType) :
    List (List SqlValue) → ℤ → Option (List (List SqlValue))
  | [], _ => some []
  | p :: ps, id =>
      match storeRow colTypes p with
      | none => none
      | some cells =>
          match insertBatch colTypes ps (id + 1) with
          | none => none
          | some rest => some ((SqlValue.sint id :: cells) :: rest)

/-- `LogDatabase::insert_logs`: typed not-initialized error before any table
exists; otherwise extract all parameter lists, run every insert inside one
transaction, and commit only if all succeed. -/
def LogDatabase.insertLogs (db : LogDatabase) (logs : List JsonLog) :
    LogDatabase × Except LogViewerError ℕ :=
  if db.fieldNames.isEmpty then
    (db, .error (.Database (.invalidParameterCount 0 0)))
  else
    let allParams := logs.map (extractParamsFromLog db.fieldNames)
    match insertBatch db.colTypes allParams db.nextId with
    | none => (db, .error (.Database (.execError "insert failed in batch")))
    | some newRows =>
        ({ db with
            rows := db.rows ++ newRows,
            nextId := db.nextId + logs.length },
          .ok logs.length)

/-- The row-reconstruction loop of `LogDatabase::query_logs`: pair column
names with cells, skip the `id` column, convert every other cell by the
probing chain. -/
def reconstructFields (colNames : List String) (row : List SqlValue) :
    List (String × Value) :=
  ((colNames.zip row).filter (fun p => p.1 ≠ "id")).map
    (fun p => (p.1, reconstructCell p.2))

/-- `LogDatabase::query_logs`: `SELECT *` with an optional verbatim WHERE
clause; a clause the engine rejects is a typed error; result rows are
reconstructed into records with the identity column excluded. -/
def LogDatabase.queryLogs (db : LogDatabase) (whereClause : Option String) :
    Except LogViewerError (List JsonLog) :=
  let colNames := "id" :: db.fieldNames
  match whereClause with
  | none =>
      .ok (db.rows.map (fun row => JsonLog.mk (reconstructFields colNames row)))
  | some w =>
      match db.whereEval w with
      | none => .error (.Database (.execError "WHERE clause rejected"))
      | some p =>
          .ok ((db.rows.filter p).map
            (fun row => JsonLog.mk (reconstructFields colNames row)))

/-- `LogDatabase::count_logs`. -/
def LogDatabase.countLogs (db : LogDatabase) : ℕ := db.rows.length

/-- `str::trim` on the character level (ASCII and Unicode whitespace,
via `Char.isWhitespace`). -/
def strTrim (s : String) : String :=
  ⟨(((s.data.dropWhile Char.isWhitespace).reverse).dropWhile
    Char.isWhitespace).reverse⟩

/-- `parse_json_line` from `src/ingestion/parser.rs`, parameterized by the
external JSON decoder (`serde_json::from_str` into a string-keyed map):
trim, reject an empty line, decode (a non-object or unparseable line is a
decoder error), reject a decoded object with zero fields. -/
def parseJsonLine (decode : String → Except String (List (String × Value)))
    (line : String) : Except LogViewerError JsonLog :=
  let trimmed := strTrim line
  if trimmed = "" then .error (.InvalidLogFormat "Empty line")
  else
    match decode trimmed with
    | .error e => .error (.JsonParse e)
    | .ok fields =>
        if fields.isEmpty then .error (.InvalidLogFormat "Empty JSON object")
        else .ok (JsonLog.mk fields)

/-- `LogFileReader::read_logs` from `src/ingestion/reader.rs`, with the
underlying line source modelled as the list of `read_line` outcomes (a read
error or the line's text): every outcome increments the line counter and
contributes one numbered result; a failing line never stops the loop. -/
def readLogs (decode : String → Except String (List (String × Value)))
    (lines : List (Except LogViewerError String)) :
    List (ℕ × Except LogViewerError JsonLog) :=
  lines.enum.map (fun p =>
    (p.1 + 1,
      match p.2 with
      | .ok line => parseJsonLine decode line
      | .error e => .error e))

/-- `ViewMode` from `src/ui/app.rs`. -/
inductive ViewMode where
  | AllLogs
  | Filtered
deriving DecidableEq, Repr

/-- `Focus` from `src/ui/app.rs`. -/
inductive Focus where
  | LogList
  | FilterInput
  | FilterPresets
deriving DecidableEq, Repr

/-- `App` from `src/ui/app.rs` (the fields `apply_filter` and `clear_filter`
read or write; the text area is its list of lines). -/
structure App where
  db : LogDatabase
  allLogs : List JsonLog
  filteredLogs : List JsonLog
  selectedIndex : ℕ
  viewMode : ViewMode
  showDetailPanel : Bool
  activeFilter : Option String
  filterInput : List String
  showFilterPanel : Bool
  filterError : Option String
  showHelp : Bool
  focus : Focus

/-- `App::clear_filter`. -/
def App.clearFilter (app : App) : App :=
  { app with
      activeFilter := none,
      viewMode := .AllLogs,
      selectedIndex := 0,
      filterError := none,
      filterInput := [] }

/-- `App::apply_filter`: join the input lines, trim; empty text clears the
filter; otherwise run the query — on success install the new result set and
state, on failure record `SQL Error: …` and change nothing else. -/
def App.applyFilter (app : App) : App × Except LogViewerError Unit :=
  let filterText := String.join app.filterInput
  let trimmed := strTrim filterText
  if trimmed = "" then (app.clearFilter, .ok ())
  else
    match app.db.queryLogs (some trimmed) with
    | .ok logs =>
        ({ app with
            filteredLogs := logs,
            activeFilter := some trimmed,
            viewMode := .Filtered,
            selectedIndex := 0,
            filterError := none,
            showFilterPanel := false,
            focus := .LogList },
          .ok ())
    | .error e =>
        ({ app with filterError := some ("SQL Error: " ++ e.describe) },
          .error e)

/-- The record `{"a":1,"b":2.5,"c":true,"d":"x"}` (2.5 is the exact rational
5/2 in `f64`). -/
def scalarSample : JsonLog :=
  ⟨[("a", .num (.int 1)), ("b", .num (.float ⟨5, 2⟩)),
    ("c", .bool true), ("d", .str "x")]⟩

/-- The scalar round-trip pipeline: infer the schema from the sample record,
create the table, batch-insert it, query with no filter. -/
def scalarRoundTrip : Except LogViewerError (List JsonLog) :=
  match (LogDatabase.newInMemory (fun _ => none)).createTableFromLogs
      [scalarSample] 100 with
  | .ok db => (db.insertLogs [scalarSample]).1.queryLogs none
  | .error e => .error e

/-- A table of one `BIGINT` column named `level`, freshly created. -/
def atomProbeDb : LogDatabase :=
  { tableName := "logs", fieldNames := ["level"], colTypes := [.Integer],
    rows := [], nextId := 1, whereEval := fun _ => none }

/-- A 10-record batch whose 7th record carries a boolean where the `level`
column expects an integer, so its insert fails at the store. -/
def atomProbeLogs : List JsonLog :=
  (List.range 10).map (fun k =>
    if k = 6 then ⟨[("level", .bool true)]⟩
    else ⟨[("level", .num (.int (k : ℤ)))]⟩)

/-- An orchestrator state holding a previously applied filter's results,
about to apply filter text the engine rejects (its `whereEval` accepts
nothing). -/
def filterProbeApp : App :=
  { db := LogDatabase.newInMemory (fun _ => none),
    allLogs := [scalarSample],
    filteredLogs := [scalarSample],
    selectedIndex := 3,
    viewMode := .Filtered,
    showDetailPanel := false,
    activeFilter := some "level >= 40",
    filterInput := ["bogus ("],
    showFilterPanel := true,
    filterError := none,
    showHelp := false,
    focus := .FilterInput }

theorem FieldType.merge_comm (a b : FieldType) : a.merge b = b.merge a := by
  revert a b; decide

theorem FieldType.merge_right_comm (x a b : FieldType) :
    (x.merge a).merge b = (x.merge b).merge a := by
  revert x a b; decide

theorem charListLt_irrefl (as : List Char) : charListLt as as = false := by
  induction as with
  | nil => rfl
  | cons a as ih => simp [charListLt, lt_irrefl a, ih]

theorem charListLt_cons_iff {a b : Char} {as bs : List Char} :
    charListLt (a :: as) (b :: bs) = true ↔
      (a < b ∨ (a = b ∧ charListLt as bs = true)) := by
  by_cases hab : a < b
  · simp [charListLt, hab]
  · by_cases hba : b < a
    · simp [charListLt, hab, hba, ne_of_gt hba]
    · have hEq : a = b := le_antisymm (not_lt.mp hba) (not_lt.mp hab)
      simp [charListLt, hab, hba, hEq]

theorem charListLt_trans : ∀ (as bs cs : List Char),
    charListLt as bs = true → charListLt bs cs = true →
    charListLt as cs = true
  | as, bs, [], _, h₂ => by cases bs <;> simp [charListLt] at h₂
  | [], _, _ :: _, _, _ => by simp [charListLt]
  | _ :: _, [], _ :: _, h₁, _ => by simp [charListLt] at h₁
  | a :: as, b :: bs, c :: cs, h₁, h₂ => by
      rcases charListLt_cons_iff.mp h₁ with h | ⟨rfl, h⟩
      · rcases charListLt_cons_iff.mp h₂ with h2 | ⟨rfl, h2⟩
        · exact charListLt_cons_iff.mpr (Or.inl (lt_trans h h2))
        · exact charListLt_cons_iff.mpr (Or.inl h)
      · rcases charListLt_cons_iff.mp h₂ with h2 | ⟨rfl, h2⟩
        · exact charListLt_cons_iff.mpr (Or.inl h2)
        · exact charListLt_cons_iff.mpr
            (Or.inr ⟨rfl, charListLt_trans as bs cs h h2⟩)

theorem charListLt_trichotomy : ∀ (as bs : List Char),
    charListLt as bs = true ∨ as = bs ∨ charListLt bs as = true
  | [], [] => Or.inr (Or.inl rfl)
  | [], _ :: _ => Or.inl rfl
  | _ :: _, [] => Or.inr (Or.inr rfl)
  | a :: as, b :: bs => by
      rcases lt_trichotomy a b with h | h | h
      · exact Or.inl (charListLt_cons_iff.mpr (Or.inl h))
      · subst h
        rcases charListLt_trichotomy as bs with h | h | h
        · exact Or.inl (charListLt_cons_iff.mpr (Or.inr ⟨rfl, h⟩))
        · exact Or.inr (Or.inl (by rw [h]))
        · exact Or.inr (Or.inr (charListLt_cons_iff.mpr (Or.inr ⟨rfl, h⟩)))
      · exact Or.inr (Or.inr (charListLt_cons_iff.mpr (Or.inl h)))

theorem strLe_iff {s t : String} :
    strLe s t = true ↔ (s = t ∨ charListLt s.data t.data = true) := by
  unfold strLe
  by_cases hd : s.data = t.data
  · simp [hd, String.ext hd]
  · have hne : s ≠ t := fun h => hd (by rw [h])
    simp [hd, hne]

theorem strLeProp_refl (s : String) : strLeProp s s :=
  strLe_iff.mpr (Or.inl rfl)

theorem strLeProp_trans {a b c : String} (h₁ : strLeProp a b)
    (h₂ : strLeProp b c) : strLeProp a c := by
  rcases strLe_iff.mp h₁ with rfl | h₁
  · exact h₂
  · rcases strLe_iff.mp h₂ with rfl | h₂
    · exact strLe_iff.mpr (Or.inr h₁)
    · exact strLe_iff.mpr (Or.inr (charListLt_trans _ _ _ h₁ h₂))

theorem strLeProp_total (s t : String) : strLeProp s t ∨ strLeProp t s := by
  rcases charListLt_trichotomy s.data t.data with h | h | h
  · exact Or.inl (strLe_iff.mpr (Or.inr h))
  · exact Or.inl (strLe_iff.mpr (Or.inl (String.ext h)))
  · exact Or.inr (strLe_iff.mpr (Or.inr h))

theorem strLeProp_antisymm {s t : String} (h₁ : strLeProp s t)
    (h₂ : strLeProp t s) : s = t := by
  rcases strLe_iff.mp h₁ with rfl | h₁
  · rfl
  · rcases strLe_iff.mp h₂ with rfl | h₂
    · rfl
    · have := charListLt_trans _ _ _ h₁ h₂
      rw [charListLt_irrefl] at this
      exact absurd this (by simp)

section FoldRel

variable {α β : Type} (R : β → β → Prop) (f : β → α → β)

theorem foldl_rel_congr (hcongr : ∀ b₁ b₂ a, R b₁ b₂ → R (f b₁ a) (f b₂ a))
    (l : List α) : ∀ b₁ b₂, R b₁ b₂ →
    R (List.foldl f b₁ l) (List.foldl f b₂ l) := by
  induction l with
  | nil => exact fun _ _ h => h
  | cons a l ih => exact fun b₁ b₂ h => ih _ _ (hcongr _ _ _ h)

theorem foldl_rel_step (htrans : ∀ {x y z : β}, R x y → R y z → R x z)
    (hrefl : ∀ b, R b b)
    (hcongr : ∀ b₁ b₂ a, R b₁ b₂ → R (f b₁ a) (f b₂ a))
    (hcomm : ∀ b a a', R (f (f b a) a') (f (f b a') a))
    (l : List α) : ∀ b a,
    R (List.foldl f (f b a) l) (f (List.foldl f b l) a) := by
  induction l with
  | nil => exact fun _ _ => hrefl _
  | cons x l ih =>
      intro b a
      exact htrans (foldl_rel_congr R f hcongr l _ _ (hcomm b a x))
        (ih (f b x) a)

theorem foldl_rel_blocks (htrans : ∀ {x y z : β}, R x y → R y z → R x z)
    (hrefl : ∀ b, R b b)
    (hcongr : ∀ b₁ b₂ a, R b₁ b₂ → R (f b₁ a) (f b₂ a))
    (hcomm : ∀ b a a', R (f (f b a) a') (f (f b a') a))
    (l₁ l₂ : List α) : ∀ b,
    R (List.foldl f (List.foldl f b l₁) l₂)
      (List.foldl f (List.foldl f b l₂) l₁) := by
  induction l₁ with
  | nil => exact fun _ => hrefl _
  | cons a l₁ ih =>
      intro b
      refine htrans (ih (f b a)) ?_
      refine foldl_rel_congr R f hcongr l₁ _ _ ?_
      exact foldl_rel_step R f htrans hrefl hcongr hcomm l₂ b a

theorem foldl_rel_perm (htrans : ∀ {x y z : β}, R x y → R y z → R x z)
    (hrefl : ∀ b, R b b)
    (hcongr : ∀ b₁ b₂ a, R b₁ b₂ → R (f b₁ a) (f b₂ a))
    (hcomm : ∀ b a a', R (f (f b a) a') (f (f b a') a))
    {l₁ l₂ : List α} (hp : l₁.Perm l₂) : ∀ b,
    R (List.foldl f b l₁) (List.foldl f b l₂) := by
  induction hp with
  | nil => exact fun _ => hrefl _
  | cons x _ ih => exact fun b => ih (f b x)
  | swap x y l => exact fun b => foldl_rel_congr R f hcongr l _ _ (hcomm b y x)
  | trans _ _ ih₁ ih₂ => exact fun b => htrans (ih₁ b) (ih₂ b)

end FoldRel

theorem keyInsert_comm (ks : List String) (a b : String) :
    (keyInsert (keyInsert ks a) b).Perm (keyInsert (keyInsert ks b) a) := by
  by_cases hab : a = b
  · subst hab; exact List.Perm.refl _
  · by_cases ha : a ∈ ks <;> by_cases hb : b ∈ ks
    · simp [keyInsert, ha, hb]
    · simp only [keyInsert, if_pos ha, if_neg hb]
      have ha' : a ∈ ks ++ [b] := List.mem_append_left _ ha
      simp [keyInsert, ha']
    · simp only [keyInsert, if_neg ha, if_pos hb]
      have hb' : b ∈ ks ++ [a] := List.mem_append_left _ hb
      simp [keyInsert, hb']
    · have hb' : b ∉ ks ++ [a] := by
        simp [List.mem_append, hb, Ne.symm hab]
      have ha' : a ∉ ks ++ [b] := by
        simp [List.mem_append, ha, hab]
      simp only [keyInsert, if_neg ha, if_neg hb, if_neg hb', if_neg ha']
      rw [List.append_assoc, List.append_assoc]
      exact List.Perm.append_left ks (List.Perm.swap b a [])

theorem keyInsert_perm_congr {ks₁ ks₂ : List String} (n : String)
    (h : ks₁.Perm ks₂) : (keyInsert ks₁ n).Perm (keyInsert ks₂ n) := by
  by_cases hn : n ∈ ks₁
  · simp [keyInsert, hn, h.mem_iff.mp hn, h]
  · have hn₂ : n ∉ ks₂ := fun hc => hn (h.mem_iff.mpr hc)
    simp only [keyInsert, if_neg hn, if_neg hn₂]
    exact h.append_right [n]

theorem typesUpdate_comm (f : String → Option FieldType) (n₁ n₂ : String)
    (t₁ t₂ : FieldType) :
    typesUpdate (typesUpdate f n₁ t₁) n₂ t₂ =
      typesUpdate (typesUpdate f n₂ t₂) n₁ t₁ := by
  funext k
  by_cases h12 : n₁ = n₂
  · subst h12
    by_cases hk : k = n₁
    · subst hk
      cases hf : f k <;>
        simp [typesUpdate, hf, FieldType.merge_comm t₁ t₂,
          FieldType.merge_right_comm]
    · simp [typesUpdate, hk]
  · by_cases hk2 : k = n₂
    · subst hk2
      have hk1 : k ≠ n₁ := fun h => h12 h.symm
      simp [typesUpdate, hk1, h12, Ne.symm h12]
    · by_cases hk1 : k = n₁
      · subst hk1
        simp [typesUpdate, hk2, h12]
      · simp [typesUpdate, hk1, hk2]

theorem SchemaBuilder.equiv_refl (b : SchemaBuilder) : b.Equiv b :=
  ⟨rfl, List.Perm.refl _⟩

theorem SchemaBuilder.equiv_trans {a b c : SchemaBuilder} (h₁ : a.Equiv b)
    (h₂ : b.Equiv c) : a.Equiv c :=
  ⟨h₁.1.trans h₂.1, h₁.2.trans h₂.2⟩

theorem analyzeField_congr {b₁ b₂ : SchemaBuilder} (p : String × Value)
    (h : b₁.Equiv b₂) : (b₁.analyzeField p).Equiv (b₂.analyzeField p) :=
  ⟨by simp [SchemaBuilder.analyzeField, h.1],
    keyInsert_perm_congr _ h.2⟩

theorem analyzeField_comm (b : SchemaBuilder) (p q : String × Value) :
    ((b.analyzeField p).analyzeField q).Equiv
      ((b.analyzeField q).analyzeField p) :=
  ⟨typesUpdate_comm _ _ _ _ _, keyInsert_comm _ _ _⟩

theorem analyzeLog_congr {b₁ b₂ : SchemaBuilder} (log : JsonLog)
    (h : b₁.Equiv b₂) : (b₁.analyzeLog log).Equiv (b₂.analyzeLog log) :=
  foldl_rel_congr SchemaBuilder.Equiv SchemaBuilder.analyzeField
    (fun _ _ p h => analyzeField_congr p h) log.fields _ _ h

theorem analyzeLog_comm (b : SchemaBuilder) (l₁ l₂ : JsonLog) :
    ((b.analyzeLog l₁).analyzeLog l₂).Equiv
      ((b.analyzeLog l₂).analyzeLog l₁) := by
  unfold SchemaBuilder.analyzeLog
  exact foldl_rel_blocks SchemaBuilder.Equiv SchemaBuilder.analyzeField
    SchemaBuilder.equiv_trans SchemaBuilder.equiv_refl
    (fun _ _ p h => analyzeField_congr p h)
    (fun b p q => analyzeField_comm b p q) l₁.fields l₂.fields b

theorem buildSchema_perm {logs₁ logs₂ : List JsonLog}
    (h : logs₁.Perm logs₂) :
    (buildSchema logs₁).Equiv (buildSchema logs₂) := by
  unfold buildSchema SchemaBuilder.analyzeLogs
  exact foldl_rel_perm SchemaBuilder.Equiv SchemaBuilder.analyzeLog
    SchemaBuilder.equiv_trans SchemaBuilder.equiv_refl
    (fun _ _ log h => analyzeLog_congr log h)
    (fun b l₁ l₂ => analyzeLog_comm b l₁ l₂) h SchemaBuilder.new

theorem insertionSort_eq_of_perm {ks₁ ks₂ : List String} (h : ks₁.Perm ks₂) :
    ks₁.insertionSort strLeProp = ks₂.insertionSort strLeProp := by
  haveI : IsTotal String strLeProp := ⟨strLeProp_total⟩
  haveI : IsTrans String strLeProp := ⟨fun _ _ _ => strLeProp_trans⟩
  haveI : IsAntisymm String strLeProp := ⟨fun _ _ => strLeProp_antisymm⟩
  exact List.eq_of_perm_of_sorted
    (((List.perm_insertionSort _ ks₁).trans h).trans
      (List.perm_insertionSort _ ks₂).symm)
    (List.sorted_insertionSort _ ks₁) (List.sorted_insertionSort _ ks₂)

theorem fieldNames_eq_of_equiv {b₁ b₂ : SchemaBuilder} (h : b₁.Equiv b₂) :
    b₁.fieldNames = b₂.fieldNames :=
  insertionSort_eq_of_perm h.2

theorem fieldNames_sorted (b : SchemaBuilder) :
    List.Sorted strLeProp b.fieldNames := by
  haveI : IsTotal String strLeProp := ⟨strLeProp_total⟩
  haveI : IsTrans String strLeProp := ⟨fun _ _ _ => strLeProp_trans⟩
  exact List.sorted_insertionSort _ b.keys

theorem sortPairs_entries (b : SchemaBuilder) :
    sortPairs b.entries = b.entries := by
  apply List.Sorted.insertionSort_eq
  exact List.Pairwise.map _ (fun _ _ h => h) (fieldNames_sorted b)

/-- C3: the column-type merge operation is commutative and associative over
the five types; `merge T T = T`; `merge Integer Float = Float` in either
argument order; every other non-identical combination merges to `Text`. -/
theorem C3_merge_algebra :
    (∀ a b : FieldType, a.merge b = b.merge a) ∧
    (∀ a b c : FieldType, (a.merge b).merge c = a.merge (b.merge c)) ∧
    (∀ a : FieldType, a.merge a = a) ∧
    FieldType.Integer.merge .Float = .Float ∧
    FieldType.Float.merge .Integer = .Float ∧
    (∀ a b : FieldType, a ≠ b →
      ¬(a = .Integer ∧ b = .Float) → ¬(a = .Float ∧ b = .Integer) →
      a.merge b = .Text) := by
  refine ⟨by decide, by decide, by decide, by decide, by decide, by decide⟩

/-- Witness for C3: instantiates the conditional component at the concrete
non-identical pair (Integer, Text). -/
theorem C3_merge_algebra_witness :
    FieldType.Integer ≠ FieldType.Text ∧
    FieldType.Integer.merge .Text = .Text :=
  ⟨by decide,
    C3_merge_algebra.2.2.2.2.2 .Integer .Text (by decide) (by decide)
      (by decide)⟩

/-- C5: type classification during inference sends a number in exact integral
(`i64`/`u64`) representation to Integer and any other number to Float; null
to Text, booleans to Boolean, strings to Text, arrays and objects to Json. -/
theorem C5_detect_field_type :
    detectFieldType .null = .Text ∧
    (∀ b, detectFieldType (.bool b) = .Boolean) ∧
    (∀ i, detectFieldType (.num (.int i)) = .Integer) ∧
    (∀ q, detectFieldType (.num (.float q)) = .Float) ∧
    (∀ s, detectFieldType (.str s) = .Text) ∧
    (∀ xs, detectFieldType (.arr xs) = .Json) ∧
    (∀ xs, detectFieldType (.obj xs) = .Json) :=
  ⟨rfl, fun _ => rfl, fun _ => rfl, fun _ => rfl, fun _ => rfl,
    fun _ => rfl, fun _ => rfl⟩

/-- C9: the typed projections look up literal raw keys without normalizing:
a record holding its message under the canonical key `"message"` (as every
record reconstructed from the store does) has `get_message = None`, and
likewise for `"timestamp"`/`get_timestamp_ms` and `"lvl"`/`get_level_raw`,
even though the normalizer maps `"msg"` to `"message"`. -/
theorem C9_projections_literal_keys :
    (∀ (m : List (String × Value)) (s : String),
      (JsonLog.mk m).getField "msg" = none →
      (JsonLog.mk m).getField "message" = some (.str s) →
      (JsonLog.mk m).getMessage = none) ∧
    (∀ (m : List (String × Value)) (i : ℤ),
      (JsonLog.mk m).getField "time" = none →
      (JsonLog.mk m).getField "timestamp" = some (.num (.int i)) →
      (JsonLog.mk m).getTimestampMs = none) ∧
    (∀ (m : List (String × Value)) (i : ℤ),
      (JsonLog.mk m).getField "level" = none →
      (JsonLog.mk m).getField "lvl" = some (.num (.int i)) →
      (JsonLog.mk m).getLevelRaw = none) ∧
    normalizeFieldName "msg" = "message" := by
  refine ⟨?_, ?_, ?_, rfl⟩
  · intro m s h _
    simp [JsonLog.getMessage, h]
  · intro m i h _
    simp [JsonLog.getTimestampMs, h]
  · intro m i h _
    simp [JsonLog.getLevelRaw, h]

/-- Witness for C9: a concrete record whose message sits under the canonical
key `"message"`; `get_message` misses it. -/
theorem C9_projections_literal_keys_witness :
    (JsonLog.mk [("message", .str "hello")]).getField "msg" = none ∧
    (JsonLog.mk [("message", .str "hello")]).getField "message"
      = some (.str "hello") ∧
    (JsonLog.mk [("message", .str "hello")]).getMessage = none :=
  ⟨rfl, rfl, C9_projections_literal_keys.1 [("message", .str "hello")] "hello"
    rfl rfl⟩


/-- C6: analyzing the same sample in any record order yields the same
name→type mapping and the same sorted column-name list; the DDL column
order after the identity column is exactly that sorted list (which is also
the positional parameter order `extract_params_from_log` uses, since
`create_table_from_logs` records exactly `field_names()`); identical frozen
schema yields identical DDL up to table name. -/
theorem C6_schema_determinism :
    (∀ logs₁ logs₂ : List JsonLog, logs₁.Perm logs₂ →
      (buildSchema logs₁).types = (buildSchema logs₂).types ∧
      (buildSchema logs₁).fieldNames = (buildSchema logs₂).fieldNames) ∧
    (∀ b : SchemaBuilder, (sortPairs b.entries).map Prod.fst = b.fieldNames) ∧
    (∀ (db : LogDatabase) (logs : List JsonLog) (sampleSize : ℕ)
      (db' : LogDatabase),
      db.createTableFromLogs logs sampleSize = .ok db' →
      db'.fieldNames = (buildSchema (logs.take sampleSize)).fieldNames) ∧
    (∀ b₁ b₂ : SchemaBuilder, b₁.types = b₂.types → b₁.keys.Perm b₂.keys →
      ∀ t, b₁.generateCreateTableSql t = b₂.generateCreateTableSql t) := by
  refine ⟨?_, ?_, ?_, ?_⟩
  · intro logs₁ logs₂ h
    have e := buildSchema_perm h
    exact ⟨e.1, fieldNames_eq_of_equiv e⟩
  · intro b
    rw [sortPairs_entries]
    simp only [SchemaBuilder.entries, List.map_map]
    exact List.map_id b.fieldNames
  · intro db logs sampleSize db' h
    by_cases hemp : (buildSchema (logs.take sampleSize)).keys.isEmpty <;>
      simp only [LogDatabase.createTableFromLogs, hemp, if_true, if_false,
        reduceCtorEq, Except.ok.injEq] at h
    rw [← h]
  · intro b₁ b₂ htypes hkeys t
    have hfn : b₁.fieldNames = b₂.fieldNames :=
      insertionSort_eq_of_perm hkeys
    simp only [SchemaBuilder.generateCreateTableSql, SchemaBuilder.entries,
      hfn, htypes]

/-- Witness for C6: a two-record sample analyzed in both orders yields the
same sorted field-name list. -/
theorem C6_schema_determinism_witness :
    ([(⟨[("b", .num (.int 2))]⟩ : JsonLog), ⟨[("a", .str "x")]⟩].Perm
      [⟨[("a", .str "x")]⟩, ⟨[("b", .num (.int 2))]⟩]) ∧
    (buildSchema [(⟨[("b", .num (.int 2))]⟩ : JsonLog),
        ⟨[("a", .str "x")]⟩]).fieldNames =
      (buildSchema [(⟨[("a", .str "x")]⟩ : JsonLog),
        ⟨[("b", .num (.int 2))]⟩]).fieldNames :=
  ⟨List.Perm.swap _ _ _,
    (C6_schema_determinism.1 _ _ (List.Perm.swap _ _ _)).2⟩

/-- C10: for the empty schema the generated DDL consists of the sequence
statement, the table header, and the identity column line still followed by
its separating comma immediately before the closing parenthesis — a
trailing-comma column list rather than a well-formed one-column table or an
error. -/
theorem C10_empty_schema_ddl :
    SchemaBuilder.new.generateCreateTableSql "logs" =
      "CREATE SEQUENCE IF NOT EXISTS seq_logs_id START 1;\n" ++
      "CREATE TABLE logs (\n" ++
      "    id INTEGER PRIMARY KEY DEFAULT nextval(\x27seq_logs_id\x27),\n" ++
      ")" := by
  decide

/-- If some row of a batch is rejected by the store, the transaction loop
reports failure. -/
theorem insertBatch_eq_none (ct : List FieldType) :
    ∀ (ps : List (List SqlValue)) (id : ℤ),
    (∃ p ∈ ps, storeRow ct p = none) → insertBatch ct ps id = none := by
  intro ps
  induction ps with
  | nil =>
      intro id h
      rcases h with ⟨p, hp, _⟩
      cases hp
  | cons p ps ih =>
      intro id h
      rcases h with ⟨q, hq, hnone⟩
      rcases List.mem_cons.mp hq with rfl | hq'
      · simp [insertBatch, hnone]
      · cases hsr : storeRow ct p with
        | none => simp [insertBatch, hsr]
        | some cells => simp [insertBatch, hsr, ih (id + 1) ⟨q, hq', hnone⟩]

/-- C2: `insert_logs` is all-or-nothing — whenever it returns an error the
store is exactly as before the call, and in particular a batch containing a
record whose insert the store rejects leaves the table with zero of the
batch's rows and surfaces an error. -/
theorem C2_batch_atomicity :
    (∀ (db : LogDatabase) (logs : List JsonLog) (e : LogViewerError),
      (db.insertLogs logs).2 = .error e → (db.insertLogs logs).1 = db) ∧
    (∀ (db : LogDatabase) (logs : List JsonLog),
      (∃ log ∈ logs,
        storeRow db.colTypes (extractParamsFromLog db.fieldNames log)
          = none) →
      (db.insertLogs logs).1 = db ∧
      ∃ e, (db.insertLogs logs).2 = .error e) := by
  constructor
  · intro db logs e h
    by_cases hemp : db.fieldNames.isEmpty
    · simp [LogDatabase.insertLogs, hemp]
    · simp only [LogDatabase.insertLogs, hemp, if_false, Bool.false_eq_true]
      cases hb : insertBatch db.colTypes
          (logs.map (extractParamsFromLog db.fieldNames)) db.nextId with
      | none => rfl
      | some rows =>
          simp only [LogDatabase.insertLogs, hemp, hb, if_false,
            Bool.false_eq_true, reduceCtorEq] at h
  · intro db logs h
    by_cases hemp : db.fieldNames.isEmpty
    · exact ⟨by simp [LogDatabase.insertLogs, hemp],
        ⟨.Database (.invalidParameterCount 0 0),
          by simp [LogDatabase.insertLogs, hemp]⟩⟩
    · have hbatch : insertBatch db.colTypes
          (logs.map (extractParamsFromLog db.fieldNames)) db.nextId = none := by
        apply insertBatch_eq_none
        rcases h with ⟨log, hlog, hnone⟩
        exact ⟨extractParamsFromLog db.fieldNames log,
          List.mem_map.mpr ⟨log, hlog, rfl⟩, hnone⟩
      exact ⟨by simp [LogDatabase.insertLogs, hemp, hbatch],
        ⟨.Database (.execError "insert failed in batch"),
          by simp [LogDatabase.insertLogs, hemp, hbatch]⟩⟩

/-- Witness for C2: the 10-record batch whose 7th record violates the
`level` column's type leaves the freshly created table with zero rows. -/
theorem C2_batch_atomicity_witness :
    (∃ log ∈ atomProbeLogs,
      storeRow atomProbeDb.colTypes
        (extractParamsFromLog atomProbeDb.fieldNames log) = none) ∧
    (atomProbeDb.insertLogs atomProbeLogs).1 = atomProbeDb ∧
    atomProbeDb.rows = [] ∧ atomProbeLogs.length = 10 :=
  ⟨by decide,
    (C2_batch_atomicity.2 atomProbeDb atomProbeLogs (by decide)).1,
    rfl, by decide⟩

/-- C7: inserting before any table exists returns the typed
`Database(InvalidParameterCount(0, 0))` error — a value, not an unchecked
fault — and leaves the store state exactly unchanged (both the single and
the batch entry point). -/
theorem C7_insert_before_create :
    ∀ (db : LogDatabase) (log : JsonLog) (logs : List JsonLog),
      db.fieldNames = [] →
      db.insertLog log
        = (db, .error (.Database (.invalidParameterCount 0 0))) ∧
      db.insertLogs logs
        = (db, .error (.Database (.invalidParameterCount 0 0))) := by
  intro db log logs h
  constructor
  · simp [LogDatabase.insertLog, h]
  · simp [LogDatabase.insertLogs, h]

/-- Witness for C7: a fresh in-memory database with no table rejects both
inserts with the typed error. -/
theorem C7_insert_before_create_witness :
    (LogDatabase.newInMemory (fun _ => none)).fieldNames = [] ∧
    ((LogDatabase.newInMemory (fun _ => none)).insertLog scalarSample).2
      = .error (.Database (.invalidParameterCount 0 0)) :=
  ⟨rfl,
    by rw [(C7_insert_before_create (LogDatabase.newInMemory (fun _ => none))
      scalarSample [] rfl).1]⟩

set_option maxRecDepth 10000 in
/-- C1: the record `{"a":1,"b":2.5,"c":true,"d":"x"}`, inferred, stored and
queried with no filter, reconstructs to a record with the same four
canonical keys and scalar-equal values; reconstruction probes string, then
integer (so an exact-integral `DOUBLE` cell comes back as Integer — the
documented collapse), then double, then boolean, else null; the identity
column never appears in a reconstructed record. -/
theorem C1_scalar_round_trip :
    scalarRoundTrip = .ok [scalarSample] ∧
    (∀ f : F64, f.isIntegral = true →
      reconstructCell (.sfloat f) = .num (.int f.toInt)) ∧
    (∀ f : F64, f.isIntegral = false →
      reconstructCell (.sfloat f) = .num (.float f)) ∧
    (∀ s, reconstructCell (.stext s) = .str s) ∧
    (∀ i, reconstructCell (.sint i) = .num (.int i)) ∧
    (∀ b, reconstructCell (.sbool b) = .bool b) ∧
    reconstructCell .snull = .null ∧
    (∀ (colNames : List String) (row : List SqlValue),
      "id" ∉ (reconstructFields colNames row).map Prod.fst) := by
  refine ⟨rfl, ?_, ?_, fun _ => rfl, fun _ => rfl, fun _ => rfl, rfl, ?_⟩
  · intro f h
    simp [reconstructCell, cellGetString, cellGetI64, h]
  · intro f h
    simp [reconstructCell, cellGetString, cellGetI64, cellGetF64, h]
  · intro colNames row
    simp [reconstructFields, List.mem_map, List.mem_filter]

/-- Witness for C1: the exact-integral double 6/2 stored in a Float column
reads back through the integer probe. -/
theorem C1_scalar_round_trip_witness :
    F64.isIntegral ⟨6, 2⟩ = true ∧
    reconstructCell (.sfloat ⟨6, 2⟩) = .num (.int (F64.toInt ⟨6, 2⟩)) :=
  ⟨by decide, C1_scalar_round_trip.2.1 ⟨6, 2⟩ (by decide)⟩

/-- C8: per-line ingestion failure isolation — an empty (or all-whitespace)
line, a line the JSON decoder rejects (non-object or unparseable), and a
decoded object with zero fields each produce a per-line typed parse error;
and the reader emits exactly one numbered result per line read, numbering
from 1, so no failing line aborts the remainder of the stream. -/
theorem C8_per_line_isolation :
    (∀ (decode : String → Except String (List (String × Value)))
      (line : String), strTrim line = "" →
      parseJsonLine decode line = .error (.InvalidLogFormat "Empty line")) ∧
    (∀ (decode : String → Except String (List (String × Value)))
      (line : String) (e : String), strTrim line ≠ "" →
      decode (strTrim line) = .error e →
      parseJsonLine decode line = .error (.JsonParse e)) ∧
    (∀ (decode : String → Except String (List (String × Value)))
      (line : String), strTrim line ≠ "" → decode (strTrim line) = .ok [] →
      parseJsonLine decode line
        = .error (.InvalidLogFormat "Empty JSON object")) ∧
    (∀ (decode : String → Except String (List (String × Value)))
      (lines : List (Except LogViewerError String)),
      (readLogs decode lines).length = lines.length) ∧
    (∀ (decode : String → Except String (List (String × Value)))
      (lines : List (Except LogViewerError String)),
      (readLogs decode lines).map Prod.fst
        = (List.range lines.length).map (· + 1)) ∧
    (∀ (decode : String → Except String (List (String × Value)))
      (lines : List (Except LogViewerError String)),
      (readLogs decode lines).map Prod.snd
        = lines.map (fun r =>
            match r with
            | .ok line => parseJsonLine decode line
            | .error e => .error e)) := by
  refine ⟨?_, ?_, ?_, ?_, ?_, ?_⟩
  · intro d line h
    simp [parseJsonLine, h]
  · intro d line e h1 h2
    simp [parseJsonLine, h1, h2]
  · intro d line h1 h2
    simp [parseJsonLine, h1, h2]
  · intro d lines
    simp [readLogs]
  · intro d lines
    conv_rhs => rw [← List.enum_map_fst lines]
    rw [List.map_map]
    simp only [readLogs, List.map_map]
    rfl
  · intro d lines
    conv_rhs => rw [← List.enum_map_snd lines]
    rw [List.map_map]
    simp only [readLogs, List.map_map]
    rfl

/-- Witness for C8: a line the decoder rejects becomes a per-line
`JsonParse` error. -/
theorem C8_per_line_isolation_witness :
    strTrim "not valid json" ≠ "" ∧
    parseJsonLine (fun _ => .error "expected object") "not valid json"
      = .error (.JsonParse "expected object") :=
  ⟨by decide,
    C8_per_line_isolation.2.1 (fun _ => .error "expected object")
      "not valid json" "expected object" (by decide) rfl⟩

/-- C4: when the store rejects the trimmed, nonempty filter text, the
orchestrator keeps its previously active result set, active filter text,
view mode — indeed every field except the error message — and records a
nonempty `SQL Error: …` message; the call reports failure. -/
theorem C4_filter_failure_frame :
    ∀ app : App,
      strTrim (String.join app.filterInput) ≠ "" →
      app.db.whereEval (strTrim (String.join app.filterInput)) = none →
      app.applyFilter.1.filteredLogs = app.filteredLogs ∧
      app.applyFilter.1.activeFilter = app.activeFilter ∧
      app.applyFilter.1.viewMode = app.viewMode ∧
      app.applyFilter.1.allLogs = app.allLogs ∧
      app.applyFilter.1.selectedIndex = app.selectedIndex ∧
      app.applyFilter.1.showFilterPanel = app.showFilterPanel ∧
      app.applyFilter.1.focus = app.focus ∧
      app.applyFilter.1.filterInput = app.filterInput ∧
      app.applyFilter.1.db = app.db ∧
      (∃ m, app.applyFilter.1.filterError = some m ∧ m ≠ "") ∧
      (∃ e, app.applyFilter.2 = .error e) := by
  intro app h1 h2
  refine ⟨?_, ?_, ?_, ?_, ?_, ?_, ?_, ?_, ?_,
    ⟨"SQL Error: "
      ++ (LogViewerError.Database (.execError "WHERE clause rejected")).describe,
      ?_, ?_⟩,
    ⟨.Database (.execError "WHERE clause rejected"), ?_⟩⟩ <;>
    simp [App.applyFilter, LogDatabase.queryLogs, h1, h2,
      LogViewerError.describe, DuckDbError.describe]

/-- Witness for C4: a concrete orchestrator state applying filter text the
engine rejects keeps its displayed result set and gains a nonempty error
message. -/
theorem C4_filter_failure_frame_witness :
    strTrim (String.join filterProbeApp.filterInput) ≠ "" ∧
    filterProbeApp.db.whereEval
      (strTrim (String.join filterProbeApp.filterInput)) = none ∧
    filterProbeApp.applyFilter.1.filteredLogs = filterProbeApp.filteredLogs ∧
    (∃ m, filterProbeApp.applyFilter.1.filterError = some m ∧ m ≠ "") :=
  ⟨by decide, rfl,
    (C4_filter_failure_frame filterProbeApp (by decide) rfl).1,
    (C4_filter_failure_frame filterProbeApp (by decide)
      rfl).2.2.2.2.2.2.2.2.2.1⟩

end LogViewer
